import Mathlib

/-!
Shallow embedding of the hot-potato toast core of the game:
`Toast` (src/unnamed/part_005, the later revision of src/src/game/Toast.ts),
`ToastManager` (src/src/game/ToastManager.ts) and
`InfiniteWorldManager` (src/src/game/InfiniteWorldManager.ts).

JavaScript numbers are modelled as rationals (`Rat`); `Date.now()`
wall-clock milliseconds as `Int`; players are opaque handles compared by
reference equality, modelled as `Nat` identities.  A per-frame
environment `Env` supplies each player's position and horizontal
velocity, the only data the core reads from a player.
-/

/-- Snapshot of the data the toast core reads from a player entity:
position `(x, y)` and horizontal velocity `vx` (in pixels / px per s). -/
structure PlayerSnapshot where
  x : Rat
  y : Rat
  vx : Rat

/-- The external physics engine view: player handle to its snapshot. -/
abbrev Env := Nat → PlayerSnapshot

/-- The tunable parameters read by the core (GameSettings singleton). -/
structure GameSettings where
  timeToEject : Rat
  ejectImpulseY : Rat
  toastOffsetY : Rat
  pickupCooldownMs : Int
  toastHorizontalMultiplier : Rat
  chunkWidth : Rat

/-- The physics world bounds rectangle (scene.physics.world.bounds). -/
structure WorldBounds where
  x : Rat
  y : Rat
  width : Rat
  height : Rat

/-- State of one Toast instance (fields of the Toast class, plus the
sprite position, velocity and body-enable flag it inherits). -/
structure Toast where
  currentOwner : Option Nat
  remainingTime : Rat
  lastOwner : Option Nat
  lastPickupTime : Int
  positionDirty : Bool
  player1Ref : Option Nat
  playedOrangeSound : Bool
  playedRedSound : Bool
  x : Rat
  y : Rat
  vx : Rat
  vy : Rat
  physicsEnabled : Bool

/-- A freshly constructed toast as `new Toast(scene, 0, 0, texture)`
leaves it: no owner, timers zero, physics body disabled. -/
def newToast : Toast :=
  { currentOwner := none
    remainingTime := 0
    lastOwner := none
    lastPickupTime := 0
    positionDirty := true
    player1Ref := none
    playedOrangeSound := false
    playedRedSound := false
    x := 0
    y := 0
    vx := 0
    vy := 0
    physicsEnabled := false }

/-- Model of `Toast.pickupBy(player)` at wall-clock time `now` (ms).
Fails on the
cooldown guard, then on the alternation guard; on success disables
physics, installs the new owner, resets the countdown, stamps
`lastPickupTime`, clears the warning-sound flags and slaves the position
to the new owner. -/
def Toast.pickupBy (s : GameSettings) (env : Env) (p : Nat) (now : Int)
    (t : Toast) : Bool × Toast :=
  if now - t.lastPickupTime < s.pickupCooldownMs then (false, t)
  else if t.lastOwner = some p then (false, t)
  else
    (true,
      { t with
        physicsEnabled := false
        currentOwner := some p
        remainingTime := s.timeToEject
        lastPickupTime := now
        positionDirty := true
        playedOrangeSound := false
        playedRedSound := false
        x := (env p).x
        y := (env p).y - s.toastOffsetY })

/-- Model of `Toast.resetToPlayer1(player1)`: records the reset owner, clears the
ownership history and cooldown stamp, then performs `pickupBy(player1)`
(discarding its boolean result, as the source does). -/
def Toast.resetToPlayer1 (s : GameSettings) (env : Env) (p1 : Nat)
    (now : Int) (t : Toast) : Toast :=
  (Toast.pickupBy s env p1 now
    { t with
      player1Ref := some p1
      lastOwner := none
      lastPickupTime := 0
      positionDirty := true }).2

/-- Model of `Toast.handleGroundHit(player1)`, which simply delegates to the reset. -/
def Toast.handleGroundHit (s : GameSettings) (env : Env) (p1 : Nat)
    (now : Int) (t : Toast) : Toast :=
  Toast.resetToPlayer1 s env p1 now t

/-- Model of `Toast.ejectFromOwner()`: no-op without an owner; otherwise records
`lastOwner`, enables physics, positions the toast at the owner, applies
the launch velocity (owner's horizontal velocity times the multiplier,
upward impulse) and clears ownership. -/
def Toast.ejectFromOwner (s : GameSettings) (env : Env) (t : Toast) :
    Toast :=
  match t.currentOwner with
  | none => t
  | some p =>
    { t with
      lastOwner := some p
      physicsEnabled := true
      x := (env p).x
      y := (env p).y - s.toastOffsetY
      vx := (env p).vx * s.toastHorizontalMultiplier
      vy := -s.ejectImpulseY
      currentOwner := none
      remainingTime := 0
      positionDirty := true }

/-- Model of `Toast.updateOwnershipState(delta)` (delta in milliseconds): no-op
without an owner; otherwise re-slave the position when dirty or moved
beyond 0.1px, decrement the countdown by `delta / 1000` seconds, latch
the two warning-sound flags at 1.5s and 0.75s, and auto-eject when the
countdown reaches ≤ 0.  The source's sequential mutations are expressed
as one record update: `moved` is the position-refresh condition, and a
latched flag is the old flag OR its threshold test. -/
def Toast.updateOwnershipState (s : GameSettings) (env : Env)
    (delta : Rat) (t : Toast) : Toast :=
  match t.currentOwner with
  | none => t
  | some p =>
    let newX := (env p).x
    let newY := (env p).y - s.toastOffsetY
    let moved := t.positionDirty
      || decide ((1 : Rat)/10 < |t.x - newX|)
      || decide ((1 : Rat)/10 < |t.y - newY|)
    let r : Rat := t.remainingTime - delta / 1000
    let t4 : Toast :=
      { t with
        x := if moved then newX else t.x
        y := if moved then newY else t.y
        positionDirty := if moved then false else t.positionDirty
        remainingTime := r
        playedOrangeSound := t.playedOrangeSound || decide (r ≤ 3/2)
        playedRedSound := t.playedRedSound || decide (r ≤ 3/4) }
    if t4.remainingTime ≤ 0 then Toast.ejectFromOwner s env t4 else t4

/-- The out-of-bounds test of `checkWorldBounds` (later revision:
buffer 100, left/right and bottom edges only). -/
def oobPos (wb : WorldBounds) (x y : Rat) : Bool :=
  decide (x < wb.x - 100) || decide (wb.x + wb.width + 100 < x)
    || decide (wb.y + wb.height + 100 < y)

/-- Model of `Toast.checkWorldBounds()`: only acts while flying; when the toast is
out of bounds and a `player1Ref` is recorded, resets to it. -/
def Toast.checkWorldBounds (s : GameSettings) (wb : WorldBounds)
    (env : Env) (now : Int) (t : Toast) : Toast :=
  if t.currentOwner.isSome then t
  else if oobPos wb t.x t.y then
    match t.player1Ref with
    | some p1 => Toast.resetToPlayer1 s env p1 now t
    | none => t
  else t

/-- First statement of `Toast.update`: run `updateOwnershipState` only
when an owner exists. -/
def Toast.tickCore (s : GameSettings) (env : Env) (delta : Rat)
    (t : Toast) : Toast :=
  if t.currentOwner.isSome then Toast.updateOwnershipState s env delta t
  else t

/-- Model of `Toast.update(delta)`: the ownership tick followed by the
world-bounds check (which may reset, hence needs the wall clock). -/
def Toast.update (s : GameSettings) (wb : WorldBounds) (env : Env)
    (delta : Rat) (now : Int) (t : Toast) : Toast :=
  Toast.checkWorldBounds s wb env now (Toast.tickCore s env delta t)

/-- Whether `it` is a managed toast entry currently owned by player `p`. -/
def ownedBy (p : Nat) (it : String × Toast) : Bool :=
  decide (it.2.currentOwner = some p)

/-- State of the ToastManager: the id-keyed toast map (insertion-ordered
association list with unique keys, as a JS `Map`) and the player list
(index 0 is the default ground-reset owner). -/
structure ToastManager where
  toasts : List (String × Toast)
  players : List Nat

/-- The `Map.set` semantics on the association list: replace the entry when
the key is present, append otherwise. -/
def ToastManager.setToast (m : ToastManager) (id : String) (t : Toast) :
    ToastManager :=
  if m.toasts.any (fun it => it.1 = id) then
    { m with toasts := m.toasts.map (fun it => if it.1 = id then (id, t) else it) }
  else
    { m with toasts := m.toasts ++ [(id, t)] }

/-- Model of `ToastManager.canPlayerPickupToast(player)`: true when no managed
toast is currently owned by the player. -/
def ToastManager.canPlayerPickupToast (m : ToastManager) (p : Nat) : Bool :=
  m.toasts.all (fun it => !(decide (it.2.currentOwner = some p)))

/-- Model of `ToastManager.createToast(id, texture, initialOwner)`: construct a
fresh toast, store it under `id`, and immediately reset it onto the
given owner. -/
def ToastManager.createToast (s : GameSettings) (env : Env) (id : String)
    (initialOwner : Nat) (now : Int) (m : ToastManager) : ToastManager :=
  m.setToast id (Toast.resetToPlayer1 s env initialOwner now newToast)

/-- Model of `ToastManager.update(delta)`: forward the tick to every managed toast. -/
def ToastManager.update (s : GameSettings) (wb : WorldBounds) (env : Env)
    (delta : Rat) (now : Int) (m : ToastManager) : ToastManager :=
  { m with toasts := m.toasts.map (fun it => (it.1, Toast.update s wb env delta now it.2)) }

/-- The overlap callback wired by `setupPlayerOverlaps` for the toast at
list position `i` and player `p`: pick up only when the toast is not
owned, the alternation pre-check passes, and the manager-level
one-toast-per-player scan passes. -/
def ToastManager.overlapEvent (s : GameSettings) (env : Env) (i : Nat)
    (p : Nat) (now : Int) (m : ToastManager) : ToastManager :=
  match m.toasts[i]? with
  | none => m
  | some it =>
    if it.2.currentOwner = none ∧ it.2.lastOwner ≠ some p
        ∧ m.canPlayerPickupToast p = true then
      { m with toasts := m.toasts.set i (it.1, (Toast.pickupBy s env p now it.2).2) }
    else m

/-- The ground-collision callback wired by `setupGroundCollisions` for
the toast at list position `i`: when the player list is nonempty, reset
that toast onto the first player. -/
def ToastManager.groundContactEvent (s : GameSettings) (env : Env)
    (i : Nat) (now : Int) (m : ToastManager) : ToastManager :=
  match m.toasts[i]?, m.players with
  | some it, p1 :: _ =>
    { m with toasts := m.toasts.set i (it.1, Toast.handleGroundHit s env p1 now it.2) }
  | _, _ => m

/-- Number of managed toasts currently owned by player `p`. -/
def ToastManager.ownedCount (m : ToastManager) (p : Nat) : Nat :=
  m.toasts.countP (ownedBy p)

/-- The single-possession invariant of the spec: no player owns more
than one managed toast. -/
def SinglePossession (m : ToastManager) : Prop :=
  ∀ p : Nat, m.ownedCount p ≤ 1

/-- State of the InfiniteWorldManager: the resident chunk index set (the
keys `chunk_<i>` of the JS map, which are in bijection with the indices),
the last tracked position and the render distance (initialised to 2 and
never mutated by the source). -/
structure InfiniteWorldState where
  chunks : List Int
  lastPlayerX : Rat
  renderDistance : Nat

/-- The `chunks.has(id)`-guarded generation of one chunk index. -/
def insertChunk (cs : List Int) (i : Int) : List Int :=
  if i ∈ cs then cs else cs ++ [i]

/-- The generation loop: insert every index of `l` that is not resident. -/
def genAll (cs : List Int) (l : List Int) : List Int :=
  l.foldl insertChunk cs

/-- The list `intRange start n` = `[start, start + 1, ..., start + n - 1]`. -/
def intRange (start : Int) : Nat → List Int
  | 0 => []
  | n + 1 => start :: intRange (start + 1) n

/-- The inclusive index interval `[cur - rd, cur + rd]` iterated by the
generation loop. -/
def genRange (cur : Int) (rd : Nat) : List Int :=
  intRange (cur - rd) (2 * rd + 1)

/-- Model of `InfiniteWorldManager.update(playerX)`: record the position, compute
the current chunk index by floor division, generate every missing chunk
within `renderDistance`, then remove every chunk strictly beyond
`renderDistance + 1`. -/
def InfiniteWorldManager.update (s : GameSettings) (x : Rat)
    (w : InfiniteWorldState) : InfiniteWorldState :=
  let cur : Int := ⌊x / s.chunkWidth⌋
  let generated := genAll w.chunks (genRange cur w.renderDistance)
  { chunks := generated.filter (fun i => decide ((i - cur).natAbs ≤ w.renderDistance + 1))
    lastPlayerX := x
    renderDistance := w.renderDistance }

/-- Model of the bootstrap (the source calls it on construction):
unconditionally generate the
literal bootstrap indices −2…2 (a `Map.set` on a present key replaces
the chunk but leaves the key set unchanged, so the index set behaves as
insert-if-absent). -/
def InfiniteWorldManager.bootstrap (w : InfiniteWorldState) :
    InfiniteWorldState :=
  { w with chunks := genAll w.chunks (genRange 0 2) }

/-- A sequence of `update` calls, applied left to right. -/
def InfiniteWorldManager.updates (s : GameSettings) (xs : List Rat)
    (w : InfiniteWorldState) : InfiniteWorldState :=
  xs.foldl (fun w x => InfiniteWorldManager.update s x w) w

/-- The repository's default settings (GameSettings.ts); the horizontal
multiplier and chunk width take the spec's scenario values. -/
def testSettings : GameSettings :=
  { timeToEject := 3
    ejectImpulseY := 1000
    toastOffsetY := 8
    pickupCooldownMs := 100
    toastHorizontalMultiplier := 1
    chunkWidth := 1024 }

/-- A concrete environment: every player sits at the origin at rest. -/
def testEnv : Env := fun _ => { x := 0, y := 0, vx := 0 }

/-- The default 2048×768 world with origin at (0,0). -/
def testWb : WorldBounds := { x := 0, y := 0, width := 2048, height := 768 }

/-! Helper lemmas about `Toast.pickupBy` and the reset. -/

/-- A failed pickup is a silent no-op: the toast is unchanged. -/
theorem pickupBy_fail_snd (s : GameSettings) (env : Env) (p : Nat)
    (now : Int) (t : Toast)
    (h : (Toast.pickupBy s env p now t).1 = false) :
    (Toast.pickupBy s env p now t).2 = t := by
  unfold Toast.pickupBy at *
  split_ifs at h ⊢ <;> simp_all

/-- A pickup attempt within the cooldown window fails. -/
theorem pickupBy_fail_of_cooldown (s : GameSettings) (env : Env) (p : Nat)
    (now : Int) (t : Toast)
    (h : now - t.lastPickupTime < s.pickupCooldownMs) :
    (Toast.pickupBy s env p now t).1 = false := by
  unfold Toast.pickupBy
  simp [h]

/-- A pickup attempt by the recorded last owner fails. -/
theorem pickupBy_fail_of_lastOwner (s : GameSettings) (env : Env) (p : Nat)
    (now : Int) (t : Toast) (h : t.lastOwner = some p) :
    (Toast.pickupBy s env p now t).1 = false := by
  unfold Toast.pickupBy
  split_ifs <;> simp_all

/-- A successful pickup yields exactly the source's post-state: new
owner installed, countdown reloaded, pickup time stamped, sound flags
cleared, physics off, position slaved; `lastOwner` is untouched. -/
theorem pickupBy_succ_spec (s : GameSettings) (env : Env) (p : Nat)
    (now : Int) (t : Toast)
    (h : (Toast.pickupBy s env p now t).1 = true) :
    (Toast.pickupBy s env p now t).2 =
      { t with
        physicsEnabled := false
        currentOwner := some p
        remainingTime := s.timeToEject
        lastPickupTime := now
        positionDirty := true
        playedOrangeSound := false
        playedRedSound := false
        x := (env p).x
        y := (env p).y - s.toastOffsetY } := by
  unfold Toast.pickupBy at *
  split_ifs at h ⊢
  simp_all

/-- When the wall clock is at least the cooldown length (always true for
real `Date.now()` values), the reset's internal pickup passes both
guards, so the reset yields exactly this post-state. -/
theorem resetToPlayer1_spec (s : GameSettings) (env : Env) (p1 : Nat)
    (now : Int) (t : Toast) (h : s.pickupCooldownMs ≤ now) :
    Toast.resetToPlayer1 s env p1 now t =
      { t with
        physicsEnabled := false
        currentOwner := some p1
        remainingTime := s.timeToEject
        lastPickupTime := now
        positionDirty := true
        playedOrangeSound := false
        playedRedSound := false
        x := (env p1).x
        y := (env p1).y - s.toastOffsetY
        lastOwner := none
        player1Ref := some p1 } := by
  unfold Toast.resetToPlayer1 Toast.pickupBy
  have h1 : ¬ (now < s.pickupCooldownMs) := by omega
  simp [h1]

/-! Claim theorems: pickup guards and resets. -/

/-- Claim C6: every pickup attempt made strictly less than
`pickupCooldownMs` wall-clock milliseconds after the most recent
successful pickup of that toast returns false, whoever attempts it. -/
theorem c6_cooldown (s : GameSettings) (env env2 : Env) (t0 : Toast)
    (q r : Nat) (now0 now : Int)
    (hs : (Toast.pickupBy s env q now0 t0).1 = true)
    (hc : now - now0 < s.pickupCooldownMs) :
    (Toast.pickupBy s env2 r now (Toast.pickupBy s env q now0 t0).2).1 = false := by
  rw [pickupBy_succ_spec s env q now0 t0 hs]
  exact pickupBy_fail_of_cooldown _ _ _ _ _ (by simpa using hc)

/-- Witness for C6: a fresh toast is picked up by player 1 at t=1000ms;
player 0's attempt 50ms later fails (cooldown 100ms). -/
theorem c6_cooldown_witness :
    (Toast.pickupBy testSettings testEnv 1 1000 newToast).1 = true ∧
    (Toast.pickupBy testSettings testEnv 0 1050
      (Toast.pickupBy testSettings testEnv 1 1000 newToast).2).1 = false := by
  refine ⟨by simp [Toast.pickupBy, newToast, testSettings], ?_⟩
  exact c6_cooldown testSettings testEnv testEnv newToast 1 0 1000 1050
    (by simp [Toast.pickupBy, newToast, testSettings]) (by norm_num [testSettings])

/-- Counterexample to C7 as stated: after a ground reset at wall-clock
time 1000ms, the pickup-cooldown timestamp is NOT left cleared — the
reset's internal pickup stamps it with the reset time 1000. -/
theorem c7_reset_counterexample :
    (Toast.resetToPlayer1 testSettings testEnv 0 1000
        { newToast with lastOwner := some 1, lastPickupTime := 500 }).currentOwner = some 0 ∧
    (Toast.resetToPlayer1 testSettings testEnv 0 1000
        { newToast with lastOwner := some 1, lastPickupTime := 500 }).lastOwner = none ∧
    ¬ (Toast.resetToPlayer1 testSettings testEnv 0 1000
        { newToast with lastOwner := some 1, lastPickupTime := 500 }).lastPickupTime = 0 := by
  simp [Toast.resetToPlayer1, Toast.pickupBy, newToast, testSettings, testEnv]

/-- Claim C7 (amended): provided the wall clock is at least
`pickupCooldownMs` (always true in practice), the ground/out-of-bounds
reset is never blocked by the alternation or cooldown guards, whatever
state the toast is in: it leaves the toast owned by the reset owner with
`lastOwner` cleared and the countdown reloaded.  The cooldown timestamp
is cleared *before* the internal pickup, which then records the reset
time, so the final timestamp is `now`, not 0. -/
theorem c7_reset_amended (s : GameSettings) (env : Env) (p1 : Nat)
    (now : Int) (t : Toast) (h : s.pickupCooldownMs ≤ now) :
    (Toast.handleGroundHit s env p1 now t).currentOwner = some p1 ∧
    (Toast.handleGroundHit s env p1 now t).lastOwner = none ∧
    (Toast.handleGroundHit s env p1 now t).remainingTime = s.timeToEject ∧
    (Toast.handleGroundHit s env p1 now t).lastPickupTime = now ∧
    (Toast.handleGroundHit s env p1 now t).player1Ref = some p1 := by
  unfold Toast.handleGroundHit
  rw [resetToPlayer1_spec s env p1 now t h]
  simp

/-- Witness for C7 (amended): a ground hit at t=1000ms on a toast whose
last owner was player 1 hands it to player 0 with history cleared. -/
theorem c7_reset_amended_witness :
    (Toast.handleGroundHit testSettings testEnv 0 1000
        { newToast with lastOwner := some 1, lastPickupTime := 500 }).currentOwner = some 0 ∧
    (Toast.handleGroundHit testSettings testEnv 0 1000
        { newToast with lastOwner := some 1, lastPickupTime := 500 }).lastOwner = none := by
  have h := c7_reset_amended testSettings testEnv 0 1000
    { newToast with lastOwner := some 1, lastPickupTime := 500 } (by norm_num [testSettings])
  exact ⟨h.1, h.2.1⟩

/-- Claim C9: ground-reset is idempotent — two successive resets with no
pickups in between each leave the toast owned by the default owner with
a full countdown (given real wall-clock times ≥ the cooldown length). -/
theorem c9_reset_idempotent (s : GameSettings) (env1 env2 : Env)
    (p1 : Nat) (n1 n2 : Int) (t : Toast)
    (h1 : s.pickupCooldownMs ≤ n1) (h2 : s.pickupCooldownMs ≤ n2) :
    ((Toast.handleGroundHit s env1 p1 n1 t).currentOwner = some p1 ∧
      (Toast.handleGroundHit s env1 p1 n1 t).remainingTime = s.timeToEject) ∧
    ((Toast.handleGroundHit s env2 p1 n2 (Toast.handleGroundHit s env1 p1 n1 t)).currentOwner = some p1 ∧
      (Toast.handleGroundHit s env2 p1 n2 (Toast.handleGroundHit s env1 p1 n1 t)).remainingTime = s.timeToEject) := by
  unfold Toast.handleGroundHit
  rw [resetToPlayer1_spec s env1 p1 n1 t h1,
    resetToPlayer1_spec s env2 p1 n2 _ h2]
  simp

/-- Witness for C9: two ground resets at t=1000ms and t=5000ms. -/
theorem c9_reset_idempotent_witness :
    ((Toast.handleGroundHit testSettings testEnv 0 1000 newToast).currentOwner = some 0 ∧
      (Toast.handleGroundHit testSettings testEnv 0 1000 newToast).remainingTime = 3) ∧
    ((Toast.handleGroundHit testSettings testEnv 0 5000
        (Toast.handleGroundHit testSettings testEnv 0 1000 newToast)).currentOwner = some 0 ∧
      (Toast.handleGroundHit testSettings testEnv 0 5000
        (Toast.handleGroundHit testSettings testEnv 0 1000 newToast)).remainingTime = 3) := by
  have h := c9_reset_idempotent testSettings testEnv testEnv 0 1000 5000 newToast
    (by norm_num [testSettings]) (by norm_num [testSettings])
  simpa [testSettings] using h

/-! Helper lemmas about the ownership tick. -/

/-- An owned toast whose decremented countdown reaches ≤ 0 is ejected by
`updateOwnershipState`: ownership cleared, `lastOwner` recorded, physics
enabled, position and launch velocity taken from the owner. -/
theorem uos_eject (s : GameSettings) (env : Env) (delta : Rat)
    (t : Toast) (p : Nat) (hown : t.currentOwner = some p)
    (htrig : t.remainingTime - delta / 1000 ≤ 0) :
    (Toast.updateOwnershipState s env delta t).currentOwner = none ∧
    (Toast.updateOwnershipState s env delta t).lastOwner = some p ∧
    (Toast.updateOwnershipState s env delta t).remainingTime = 0 ∧
    (Toast.updateOwnershipState s env delta t).x = (env p).x ∧
    (Toast.updateOwnershipState s env delta t).y = (env p).y - s.toastOffsetY ∧
    (Toast.updateOwnershipState s env delta t).physicsEnabled = true ∧
    (Toast.updateOwnershipState s env delta t).vx = (env p).vx * s.toastHorizontalMultiplier ∧
    (Toast.updateOwnershipState s env delta t).vy = -s.ejectImpulseY ∧
    (Toast.updateOwnershipState s env delta t).player1Ref = t.player1Ref := by
  obtain ⟨co, rt, lo, lpt, pd, p1r, po, pr, tx, ty, tvx, tvy, pe⟩ := t
  simp only at hown htrig
  subst hown
  simp [Toast.updateOwnershipState, Toast.ejectFromOwner, htrig]

/-- An owned toast whose decremented countdown stays positive keeps its
owner; only position, countdown and sound flags change. -/
theorem uos_stay (s : GameSettings) (env : Env) (delta : Rat)
    (t : Toast) (p : Nat) (hown : t.currentOwner = some p)
    (hstay : 0 < t.remainingTime - delta / 1000) :
    (Toast.updateOwnershipState s env delta t).currentOwner = some p ∧
    (Toast.updateOwnershipState s env delta t).remainingTime = t.remainingTime - delta / 1000 ∧
    (Toast.updateOwnershipState s env delta t).lastOwner = t.lastOwner ∧
    (Toast.updateOwnershipState s env delta t).player1Ref = t.player1Ref ∧
    (Toast.updateOwnershipState s env delta t).physicsEnabled = t.physicsEnabled := by
  obtain ⟨co, rt, lo, lpt, pd, p1r, po, pr, tx, ty, tvx, tvy, pe⟩ := t
  simp only at hown hstay
  subst hown
  have h2 : ¬ (rt - delta / 1000 ≤ 0) := by linarith
  simp [Toast.updateOwnershipState, h2]

/-- The bounds check `checkWorldBounds` is a no-op on an owned toast. -/
theorem cwb_owned_id (s : GameSettings) (wb : WorldBounds) (env : Env)
    (now : Int) (t : Toast) (p : Nat) (hown : t.currentOwner = some p) :
    Toast.checkWorldBounds s wb env now t = t := by
  simp [Toast.checkWorldBounds, hown]

/-- The bounds check `checkWorldBounds` is a no-op on a toast whose position passes the
out-of-bounds test. -/
theorem cwb_inbounds_id (s : GameSettings) (wb : WorldBounds) (env : Env)
    (now : Int) (t : Toast) (hb : oobPos wb t.x t.y = false) :
    Toast.checkWorldBounds s wb env now t = t := by
  unfold Toast.checkWorldBounds
  split_ifs with h1 h2
  · rfl
  · rw [hb] at h2
    exact absurd h2 (by simp)
  · rfl

/-! Claim theorems: tick scenarios and ejection. -/

/-- The toast of the C3 scenario: owned by player 0 with a full 3s
countdown, as right after `resetToPlayer1` at t=0. -/
def c3Toast : Toast :=
  { newToast with currentOwner := some 0, remainingTime := 3 }

/-- Counterexample to C3 as stated: `Toast.update` takes its tick input
in milliseconds, not seconds, so three ticks with delta = 1.0 remove
only 0.003s — the toast is still owned by player 0 with 2.997s left,
not ejected. -/
theorem c3_delta_seconds_counterexample :
    (Toast.update testSettings testWb testEnv 1 0
      (Toast.update testSettings testWb testEnv 1 0
        (Toast.update testSettings testWb testEnv 1 0 c3Toast))).currentOwner = some 0 ∧
    (Toast.update testSettings testWb testEnv 1 0
      (Toast.update testSettings testWb testEnv 1 0
        (Toast.update testSettings testWb testEnv 1 0 c3Toast))).remainingTime = 2997/1000 ∧
    ¬ ((Toast.update testSettings testWb testEnv 1 0
      (Toast.update testSettings testWb testEnv 1 0
        (Toast.update testSettings testWb testEnv 1 0 c3Toast))).remainingTime ≤ 0) := by
  norm_num [Toast.update, Toast.tickCore, Toast.updateOwnershipState, Toast.checkWorldBounds,
    Toast.ejectFromOwner, c3Toast, newToast, testSettings, testEnv, testWb, oobPos]

/-- Claim C3 (amended): with `timeToEject = 3.0` and the toast owned by
player 0 at t=0, three update ticks of delta = 1000 milliseconds (the
tick input is elapsed milliseconds, 1 second each) leave
`remainingTime ≤ 0` (it is exactly 0), the toast Flying, and
`lastOwner` = player 0. -/
theorem c3_eject_scenario_ms :
    (Toast.update testSettings testWb testEnv 1000 0
      (Toast.update testSettings testWb testEnv 1000 0
        (Toast.update testSettings testWb testEnv 1000 0 c3Toast))).remainingTime ≤ 0 ∧
    (Toast.update testSettings testWb testEnv 1000 0
      (Toast.update testSettings testWb testEnv 1000 0
        (Toast.update testSettings testWb testEnv 1000 0 c3Toast))).currentOwner = none ∧
    (Toast.update testSettings testWb testEnv 1000 0
      (Toast.update testSettings testWb testEnv 1000 0
        (Toast.update testSettings testWb testEnv 1000 0 c3Toast))).lastOwner = some 0 := by
  norm_num [Toast.update, Toast.tickCore, Toast.updateOwnershipState, Toast.checkWorldBounds,
    Toast.ejectFromOwner, c3Toast, newToast, testSettings, testEnv, testWb, oobPos]

/-- Claim C4: when a tick's decremented countdown reaches ≤ 0 for a
toast owned by `p`, the toast ends the tick ejected with
`lastOwner = p`, position at the owner minus the vertical offset,
physics enabled, and launch velocity
`(owner.vx * toastHorizontalMultiplier, -ejectImpulseY)` — provided the
ejection point is not out of bounds (else the same tick's world-bounds
check would immediately reset the toast). -/
theorem c4_eject_side_effects (s : GameSettings) (wb : WorldBounds)
    (env : Env) (t : Toast) (p : Nat) (delta : Rat) (now : Int)
    (hown : t.currentOwner = some p)
    (htrig : t.remainingTime - delta / 1000 ≤ 0)
    (hb : oobPos wb (env p).x ((env p).y - s.toastOffsetY) = false) :
    (Toast.update s wb env delta now t).currentOwner = none ∧
    (Toast.update s wb env delta now t).lastOwner = some p ∧
    (Toast.update s wb env delta now t).x = (env p).x ∧
    (Toast.update s wb env delta now t).y = (env p).y - s.toastOffsetY ∧
    (Toast.update s wb env delta now t).physicsEnabled = true ∧
    (Toast.update s wb env delta now t).vx = (env p).vx * s.toastHorizontalMultiplier ∧
    (Toast.update s wb env delta now t).vy = -s.ejectImpulseY := by
  have hu := uos_eject s env delta t p hown htrig
  have hcore : Toast.tickCore s env delta t = Toast.updateOwnershipState s env delta t := by
    simp [Toast.tickCore, hown]
  have hcwb : Toast.checkWorldBounds s wb env now (Toast.updateOwnershipState s env delta t) =
      Toast.updateOwnershipState s env delta t := by
    apply cwb_inbounds_id
    rw [hu.2.2.2.1, hu.2.2.2.2.1]
    exact hb
  unfold Toast.update
  rw [hcore, hcwb]
  exact ⟨hu.1, hu.2.1, hu.2.2.2.1, hu.2.2.2.2.1, hu.2.2.2.2.2.1,
    hu.2.2.2.2.2.2.1, hu.2.2.2.2.2.2.2.1⟩

/-- Witness for C4: a toast owned by player 0 with 0.5s left, ticked
with delta = 1000ms in a world where the owner stands at (7, 20) with
horizontal velocity 5. -/
theorem c4_eject_side_effects_witness :
    (Toast.update testSettings testWb (fun _ => { x := 7, y := 20, vx := 5 }) 1000 0
        { newToast with currentOwner := some 0, remainingTime := 1/2 }).lastOwner = some 0 ∧
    (Toast.update testSettings testWb (fun _ => { x := 7, y := 20, vx := 5 }) 1000 0
        { newToast with currentOwner := some 0, remainingTime := 1/2 }).vy = -1000 := by
  have h := c4_eject_side_effects testSettings testWb
    (fun _ => { x := 7, y := 20, vx := 5 })
    { newToast with currentOwner := some 0, remainingTime := 1/2 } 0 1000 0
    (by simp [newToast]) (by norm_num [newToast]) (by norm_num [oobPos, testWb, testSettings])
  exact ⟨h.2.1, by rw [h.2.2.2.2.2.2]; norm_num [testSettings]⟩

/-- Claim C8: while a toast is owned (with the spec's data invariant
`0 ≤ remainingTime`), an update tick with delta ≥ 0 never increases
`remainingTime`; when the decremented countdown reaches ≤ 0 the same
tick auto-ejects (the toast ends the tick Flying), and otherwise the
toast stays owned with the countdown decremented exactly — provided the
owner's position is not out of bounds for the post-ejection check. -/
theorem c8_countdown_monotone (s : GameSettings) (wb : WorldBounds)
    (env : Env) (t : Toast) (p : Nat) (delta : Rat) (now : Int)
    (hown : t.currentOwner = some p)
    (hr : 0 ≤ t.remainingTime) (hd : 0 ≤ delta)
    (hb : oobPos wb (env p).x ((env p).y - s.toastOffsetY) = false) :
    (Toast.update s wb env delta now t).remainingTime ≤ t.remainingTime ∧
    (t.remainingTime - delta / 1000 ≤ 0 →
      (Toast.update s wb env delta now t).currentOwner = none) ∧
    (0 < t.remainingTime - delta / 1000 →
      (Toast.update s wb env delta now t).currentOwner = some p ∧
      (Toast.update s wb env delta now t).remainingTime = t.remainingTime - delta / 1000) := by
  have hcore : Toast.tickCore s env delta t = Toast.updateOwnershipState s env delta t := by
    simp [Toast.tickCore, hown]
  rcases le_or_lt (t.remainingTime - delta / 1000) 0 with hc | hc
  · have hu := uos_eject s env delta t p hown hc
    have hupd : Toast.update s wb env delta now t = Toast.updateOwnershipState s env delta t := by
      unfold Toast.update
      rw [hcore]
      apply cwb_inbounds_id
      rw [hu.2.2.2.1, hu.2.2.2.2.1]
      exact hb
    refine ⟨?_, fun _ => ?_, fun hpos => absurd hc (by linarith)⟩
    · rw [hupd, hu.2.2.1]
      exact hr
    · rw [hupd]
      exact hu.1
  · have hu := uos_stay s env delta t p hown hc
    have hupd : Toast.update s wb env delta now t = Toast.updateOwnershipState s env delta t := by
      unfold Toast.update
      rw [hcore]
      exact cwb_owned_id s wb env now _ p hu.1
    have hdiv : 0 ≤ delta / 1000 := by positivity
    refine ⟨?_, fun hle => absurd hle (by linarith), fun _ => ?_⟩
    · rw [hupd, hu.2.1]
      linarith
    · rw [hupd]
      exact ⟨hu.1, hu.2.1⟩

/-- Witness for C8, applied twice: a no-eject tick (delta = 500ms on a
3s countdown) keeps the owner and removes exactly 0.5s, and an ejecting
tick (delta = 4000ms) leaves the toast Flying. -/
theorem c8_countdown_monotone_witness :
    ((Toast.update testSettings testWb testEnv 500 0 c3Toast).currentOwner = some 0 ∧
      (Toast.update testSettings testWb testEnv 500 0 c3Toast).remainingTime = 3 - 500 / 1000) ∧
    (Toast.update testSettings testWb testEnv 4000 0 c3Toast).currentOwner = none := by
  constructor
  · exact (c8_countdown_monotone testSettings testWb testEnv c3Toast 0 500 0
      (by simp [c3Toast, newToast]) (by norm_num [c3Toast, newToast]) (by norm_num)
      (by norm_num [oobPos, testWb, testSettings, testEnv])).2.2 (by norm_num [c3Toast, newToast])
  · exact (c8_countdown_monotone testSettings testWb testEnv c3Toast 0 4000 0
      (by simp [c3Toast, newToast]) (by norm_num [c3Toast, newToast]) (by norm_num)
      (by norm_num [oobPos, testWb, testSettings, testEnv])).2.1 (by norm_num [c3Toast, newToast])

/-- Claim C10: `Toast.pickupBy` does not require the Flying state.  For
a toast owned by `q`, a pickup by `p ≠ lastOwner` after the cooldown
succeeds and transfers ownership directly to `p`, without an ejection
(physics stays off, velocity untouched) and without recording `q` as
`lastOwner`; the Flying precondition is enforced only by the manager's
overlap gate (`isOwned()` check), which leaves the manager unchanged
when the toast is owned. -/
theorem c10_pickup_no_flying_precondition (s : GameSettings) (env : Env)
    (t : Toast) (p q : Nat) (now : Int)
    (_hq : t.currentOwner = some q)
    (halt : t.lastOwner ≠ some p)
    (hcd : s.pickupCooldownMs ≤ now - t.lastPickupTime) :
    ((Toast.pickupBy s env p now t).1 = true ∧
      (Toast.pickupBy s env p now t).2.currentOwner = some p ∧
      (Toast.pickupBy s env p now t).2.lastOwner = t.lastOwner ∧
      (Toast.pickupBy s env p now t).2.physicsEnabled = false ∧
      (Toast.pickupBy s env p now t).2.vx = t.vx ∧
      (Toast.pickupBy s env p now t).2.vy = t.vy) ∧
    (∀ (s2 : GameSettings) (env2 : Env) (m : ToastManager) (i r : Nat)
      (now2 : Int) (it : String × Toast),
      m.toasts[i]? = some it → it.2.currentOwner.isSome = true →
      ToastManager.overlapEvent s2 env2 i r now2 m = m) := by
  constructor
  · have h1 : ¬ (now - t.lastPickupTime < s.pickupCooldownMs) := by omega
    unfold Toast.pickupBy
    simp [h1, halt]
  · intro s2 env2 m i r now2 it hit howned
    unfold ToastManager.overlapEvent
    rw [hit]
    obtain ⟨v, hv⟩ := Option.isSome_iff_exists.mp howned
    simp [hv]

/-- Witness for C10: a toast owned by player 1 (who is also its last
owner) is picked up directly by player 0 at t=1000ms; and the overlap
gate on a manager holding that owned toast is a no-op. -/
theorem c10_pickup_no_flying_precondition_witness :
    (Toast.pickupBy testSettings testEnv 0 1000
      { newToast with currentOwner := some 1, lastOwner := some 1 }).1 = true ∧
    (Toast.pickupBy testSettings testEnv 0 1000
      { newToast with currentOwner := some 1, lastOwner := some 1 }).2.currentOwner = some 0 ∧
    ToastManager.overlapEvent testSettings testEnv 0 0 1000
      { toasts := [("a", { newToast with currentOwner := some 1, lastOwner := some 1 })],
        players := [0, 1] } =
      { toasts := [("a", { newToast with currentOwner := some 1, lastOwner := some 1 })],
        players := [0, 1] } := by
  have h := c10_pickup_no_flying_precondition testSettings testEnv
    { newToast with currentOwner := some 1, lastOwner := some 1 } 0 1 1000
    (by simp [newToast]) (by simp [newToast]) (by norm_num [newToast, testSettings])
  refine ⟨h.1.1, h.1.2.1, ?_⟩
  exact h.2 testSettings testEnv _ 0 0 1000
    ("a", { newToast with currentOwner := some 1, lastOwner := some 1 }) (by simp) (by simp [newToast])

/-! Alternation: reachability without resets or successful steals. -/

/-- The world-bounds check does not fire on toast `t`: it is owned, or
in bounds, or has no recorded reset owner. -/
def noOobFire (wb : WorldBounds) (t : Toast) : Prop :=
  t.currentOwner.isSome = true ∨ oobPos wb t.x t.y = false ∨ t.player1Ref = none

/-- The bounds check `checkWorldBounds` is the identity whenever it does not fire. -/
theorem cwb_id_of_noOobFire (s : GameSettings) (wb : WorldBounds)
    (env : Env) (now : Int) (t : Toast) (h : noOobFire wb t) :
    Toast.checkWorldBounds s wb env now t = t := by
  unfold Toast.checkWorldBounds
  rcases h with h | h | h
  · simp [h]
  · simp [h]
  · simp [h]

/-- Toast histories starting at `t` made of update ticks in which the
out-of-bounds reset never fires and pickup attempts in which no player
other than `p` ever succeeds (each hypothesis is recorded on the step
that needs it). -/
inductive AltReach (s : GameSettings) (wb : WorldBounds) (p : Nat)
    (t : Toast) : Toast → Prop
  | refl : AltReach s wb p t t
  | tick (t' : Toast) (env : Env) (delta : Rat) (now : Int)
      (h : AltReach s wb p t t')
      (hnb : noOobFire wb (Toast.tickCore s env delta t')) :
      AltReach s wb p t (Toast.update s wb env delta now t')
  | attempt (t' : Toast) (env : Env) (q : Nat) (now : Int)
      (h : AltReach s wb p t t')
      (hfail : q ≠ p → (Toast.pickupBy s env q now t').1 = false) :
      AltReach s wb p t (Toast.pickupBy s env q now t').2

/-- Along any such history starting from a toast just ejected by `p`,
the toast stays flying and `p` stays the recorded last owner. -/
theorem altReach_inv (s : GameSettings) (wb : WorldBounds) (p : Nat)
    (t t' : Toast) (h0 : t.lastOwner = some p) (h1 : t.currentOwner = none)
    (hr : AltReach s wb p t t') :
    t'.lastOwner = some p ∧ t'.currentOwner = none := by
  induction hr with
  | refl => exact ⟨h0, h1⟩
  | tick t' env delta now h hnb ih =>
    have hcore : Toast.tickCore s env delta t' = t' := by
      simp [Toast.tickCore, ih.2]
    unfold Toast.update
    rw [hcore] at hnb ⊢
    rw [cwb_id_of_noOobFire s wb env now t' hnb]
    exact ih
  | attempt t' env q now h hfail ih =>
    by_cases hqp : q = p
    · subst hqp
      have hf : (Toast.pickupBy s env q now t').1 = false :=
        pickupBy_fail_of_lastOwner s env q now t' ih.1
      rw [pickupBy_fail_snd s env q now t' hf]
      exact ih
    · rw [pickupBy_fail_snd s env q now t' (hfail hqp)]
      exact ih

/-- Claim C5: immediately after a toast transitions `Owned(p) → Flying`
(so `lastOwner = p` and it is flying), every pickup attempt by `p`
returns false — at any wall-clock time, after any further ticks and
failed attempts — until another player successfully picks it up or the
toast is reset. -/
theorem c5_alternation (s : GameSettings) (wb : WorldBounds) (p : Nat)
    (t t' : Toast) (h0 : t.lastOwner = some p) (h1 : t.currentOwner = none)
    (hr : AltReach s wb p t t') (env : Env) (now : Int) :
    (Toast.pickupBy s env p now t').1 = false :=
  pickupBy_fail_of_lastOwner s env p now t'
    (altReach_inv s wb p t t' h0 h1 hr).1

/-- Witness for C5: a toast just ejected by player 0 cannot be reclaimed
by player 0 even at an arbitrarily late wall-clock time. -/
theorem c5_alternation_witness :
    ({ newToast with lastOwner := some 0 } : Toast).lastOwner = some 0 ∧
    ({ newToast with lastOwner := some 0 } : Toast).currentOwner = none ∧
    (Toast.pickupBy testSettings testEnv 0 99999999
      { newToast with lastOwner := some 0 }).1 = false :=
  ⟨rfl, rfl,
    c5_alternation testSettings testWb 0 { newToast with lastOwner := some 0 }
      { newToast with lastOwner := some 0 } rfl rfl AltReach.refl testEnv 99999999⟩

/-! Single possession: counting lemmas and manager histories. -/

/-- A per-entry transformation that can only keep or clear ownership
never increases any player's toast count. -/
theorem countP_map_le_of_owner (l : List (String × Toast)) (p : Nat)
    (f : String × Toast → String × Toast)
    (H : ∀ it ∈ l, (f it).2.currentOwner = it.2.currentOwner ∨
      (f it).2.currentOwner = none) :
    (l.map f).countP (ownedBy p) ≤ l.countP (ownedBy p) := by
  induction l with
  | nil => simp
  | cons a l ih =>
    simp only [List.map_cons, List.countP_cons]
    have hl := ih (fun it hm => H it (by simp [hm]))
    rcases H a (by simp) with ha | ha
    · have he : ownedBy p (f a) = ownedBy p a := by simp [ownedBy, ha]
      rw [he]
      omega
    · have he : ownedBy p (f a) = false := by simp [ownedBy, ha]
      rw [he]
      simp only [Bool.false_eq_true, if_false]
      split_ifs <;> omega

/-- Replacing one list entry adds at most the new entry's contribution
to any player's toast count. -/
theorem countP_set_le (l : List (String × Toast)) (i : Nat)
    (a : String × Toast) (p : Nat) :
    (l.set i a).countP (ownedBy p) ≤
      l.countP (ownedBy p) + (if ownedBy p a then 1 else 0) := by
  induction l generalizing i with
  | nil => simp
  | cons b l ih =>
    cases i with
    | zero =>
      simp only [List.set_cons_zero, List.countP_cons]
      split_ifs <;> omega
    | succ i =>
      simp only [List.set_cons_succ, List.countP_cons]
      have := ih i
      split_ifs at * <;> omega

/-- When the manager-level scan allows a pickup by `p`, player `p`
currently owns no managed toast. -/
theorem ownedCount_eq_zero_of_can (m : ToastManager) (p : Nat)
    (h : m.canPlayerPickupToast p = true) : m.ownedCount p = 0 := by
  unfold ToastManager.canPlayerPickupToast at h
  unfold ToastManager.ownedCount
  rw [List.countP_eq_zero]
  intro it hm
  have := (List.all_eq_true.mp h) it hm
  simp only [Bool.not_eq_eq_eq_not, Bool.not_true, decide_eq_false_iff_not] at this
  simp [ownedBy, this]

/-- The ownership tick can only keep or clear a toast's owner. -/
theorem tickCore_owner (s : GameSettings) (env : Env) (delta : Rat)
    (t : Toast) :
    (Toast.tickCore s env delta t).currentOwner = t.currentOwner ∨
    (Toast.tickCore s env delta t).currentOwner = none := by
  cases ho : t.currentOwner with
  | none =>
    left
    simp [Toast.tickCore, ho]
  | some p =>
    have hcore : Toast.tickCore s env delta t = Toast.updateOwnershipState s env delta t := by
      simp [Toast.tickCore, ho]
    rw [hcore]
    rcases le_or_lt (t.remainingTime - delta / 1000) 0 with hc | hc
    · right
      exact (uos_eject s env delta t p ho hc).1
    · left
      exact (uos_stay s env delta t p ho hc).1

/-- A full `Toast.update` in which the out-of-bounds reset does not fire
can only keep or clear a toast's owner. -/
theorem update_owner_of_noOobFire (s : GameSettings) (wb : WorldBounds)
    (env : Env) (delta : Rat) (now : Int) (t : Toast)
    (hnb : noOobFire wb (Toast.tickCore s env delta t)) :
    (Toast.update s wb env delta now t).currentOwner = t.currentOwner ∨
    (Toast.update s wb env delta now t).currentOwner = none := by
  unfold Toast.update
  rw [cwb_id_of_noOobFire s wb env now _ hnb]
  exact tickCore_owner s env delta t

/-- Manager histories made of update ticks in which the out-of-bounds
reset never fires on any toast, and overlap-gated pickup attempts
(the only ownership-granting path that consults the manager scan). -/
inductive SafeReach (s : GameSettings) (wb : WorldBounds)
    (m : ToastManager) : ToastManager → Prop
  | refl : SafeReach s wb m m
  | tick (m' : ToastManager) (env : Env) (delta : Rat) (now : Int)
      (h : SafeReach s wb m m')
      (hnb : ∀ it ∈ m'.toasts, noOobFire wb (Toast.tickCore s env delta it.2)) :
      SafeReach s wb m (ToastManager.update s wb env delta now m')
  | overlap (m' : ToastManager) (i p : Nat) (env : Env) (now : Int)
      (h : SafeReach s wb m m') :
      SafeReach s wb m (ToastManager.overlapEvent s env i p now m')

/-- Counterexample to C1 as stated: with players `[0, 1]`, create toast
"a" on player 0 and toast "b" on player 1, then let toast "b" hit the
ground — the ground-contact reset hands it to player 0 unconditionally,
so player 0 owns two toasts. -/
def c1Mgr : ToastManager :=
  ToastManager.groundContactEvent testSettings testEnv 1 2000
    (ToastManager.createToast testSettings testEnv "b" 1 1000
      (ToastManager.createToast testSettings testEnv "a" 0 1000
        { toasts := [], players := [0, 1] }))

/-- Counterexample theorem for C1: after creations, a pickup-free tick
sequence and one ground-contact reset, player 0 owns two toasts. -/
theorem c1_single_possession_counterexample :
    c1Mgr.ownedCount 0 = 2 ∧ ¬ SinglePossession c1Mgr := by
  have h2 : c1Mgr.ownedCount 0 = 2 := by
    simp [c1Mgr, ToastManager.groundContactEvent, ToastManager.createToast,
      ToastManager.setToast, ToastManager.ownedCount, Toast.handleGroundHit,
      Toast.resetToPlayer1, Toast.pickupBy, newToast, testSettings, testEnv, ownedBy,
      List.countP, List.countP.go]
  refine ⟨h2, fun hsp => ?_⟩
  have := hsp 0
  omega

/-- Claim C1 (amended): single possession is preserved along every
manager history made of update ticks (in which no out-of-bounds reset
fires) and overlap-gated pickup attempts, starting from any state where
every player owns at most one toast.  Toast creation, ground-contact
resets and out-of-bounds resets are NOT covered: each can hand a player
a second toast, as the counterexample shows. -/
theorem c1_single_possession_amended (s : GameSettings) (wb : WorldBounds)
    (m m' : ToastManager) (hInv : SinglePossession m)
    (hr : SafeReach s wb m m') : SinglePossession m' := by
  induction hr with
  | refl => exact hInv
  | tick m' env delta now h hnb ih =>
    intro p
    unfold ToastManager.update ToastManager.ownedCount
    simp only
    calc (m'.toasts.map fun it => (it.1, Toast.update s wb env delta now it.2)).countP (ownedBy p)
        ≤ m'.toasts.countP (ownedBy p) := by
          apply countP_map_le_of_owner
          intro it hm
          exact update_owner_of_noOobFire s wb env delta now it.2 (hnb it hm)
      _ ≤ 1 := ih p
  | overlap m' i p env now h ih =>
    intro q
    unfold ToastManager.overlapEvent
    cases hit : m'.toasts[i]? with
    | none => exact ih q
    | some it =>
      dsimp only
      split_ifs with hg
      · unfold ToastManager.ownedCount
        dsimp only
        have hihq := ih q
        unfold ToastManager.ownedCount at hihq
        cases hsucc : (Toast.pickupBy s env p now it.2).1 with
        | true =>
          have hspec := pickupBy_succ_spec s env p now it.2 hsucc
          have howner : (Toast.pickupBy s env p now it.2).2.currentOwner = some p := by
            rw [hspec]
          have hset := countP_set_le m'.toasts i
            (it.1, (Toast.pickupBy s env p now it.2).2) q
          by_cases hqp : q = p
          · subst hqp
            have hzero := ownedCount_eq_zero_of_can m' q hg.2.2
            unfold ToastManager.ownedCount at hzero
            split_ifs at hset <;> omega
          · have hcontrib : ownedBy q (it.1, (Toast.pickupBy s env p now it.2).2) = false := by
              simp only [ownedBy, howner, decide_eq_false_iff_not, Option.some.injEq]
              exact fun h => hqp h.symm
            rw [hcontrib] at hset
            simp only [Bool.false_eq_true, if_false] at hset
            omega
        | false =>
          rw [pickupBy_fail_snd s env p now it.2 hsucc]
          have hset := countP_set_le m'.toasts i (it.1, it.2) q
          have hcontrib : ownedBy q (it.1, it.2) = false := by
            simp [ownedBy, hg.1]
          rw [hcontrib] at hset
          simp only [Bool.false_eq_true, if_false] at hset
          omega
      · exact ih q

/-- The starting manager for the C1 witness: one toast owned by
player 0, players `[0, 1]`. -/
def c1StartMgr : ToastManager :=
  { toasts := [("a", c3Toast)], players := [0, 1] }

/-- Witness for C1 (amended): one overlap-gated pickup attempt on a
single-toast manager keeps single possession. -/
theorem c1_single_possession_amended_witness :
    SinglePossession (ToastManager.overlapEvent testSettings testEnv 0 1 1000 c1StartMgr) := by
  apply c1_single_possession_amended testSettings testWb c1StartMgr _
    ?_ (SafeReach.overlap c1StartMgr 0 1 testEnv 1000 SafeReach.refl)
  intro p
  have h := List.countP_le_length (p := ownedBy p) (l := c1StartMgr.toasts)
  have hlen : c1StartMgr.toasts.length = 1 := by simp [c1StartMgr]
  unfold ToastManager.ownedCount
  omega

/-! Chunk window lemmas. -/

/-- Inserting an index makes it resident. -/
theorem mem_insertChunk_self (cs : List Int) (i : Int) :
    i ∈ insertChunk cs i := by
  unfold insertChunk
  split_ifs with h
  · exact h
  · simp

/-- Inserting preserves residency. -/
theorem mem_insertChunk_of_mem (cs : List Int) (i j : Int) (h : j ∈ cs) :
    j ∈ insertChunk cs i := by
  unfold insertChunk
  split_ifs
  · exact h
  · simp [h]

/-- The generation loop preserves residency. -/
theorem mem_genAll_of_mem_left (l : List Int) (j : Int) :
    ∀ cs : List Int, j ∈ cs → j ∈ genAll cs l := by
  induction l with
  | nil =>
    intro cs h
    simpa [genAll] using h
  | cons a l ih =>
    intro cs h
    simp only [genAll, List.foldl_cons]
    simpa [genAll] using ih (insertChunk cs a) (mem_insertChunk_of_mem cs a j h)

/-- The generation loop makes every iterated index resident. -/
theorem mem_genAll_of_mem_list (l : List Int) (j : Int) :
    ∀ cs : List Int, j ∈ l → j ∈ genAll cs l := by
  induction l with
  | nil =>
    intro cs h
    simp at h
  | cons a l ih =>
    intro cs h
    simp only [genAll, List.foldl_cons]
    rcases List.mem_cons.mp h with rfl | h2
    · simpa [genAll] using mem_genAll_of_mem_left l j (insertChunk cs j)
        (mem_insertChunk_self cs j)
    · simpa [genAll] using ih (insertChunk cs a) h2

/-- Membership in an integer interval is the two inequalities. -/
theorem mem_intRange (j : Int) : ∀ (n : Nat) (start : Int),
    j ∈ intRange start n ↔ start ≤ j ∧ j < start + n := by
  intro n
  induction n with
  | zero =>
    intro start
    simp [intRange]
  | succ n ih =>
    intro start
    simp only [intRange, List.mem_cons, ih (start + 1)]
    omega

/-- Every index within `renderDistance` of `cur` is in the generation
interval. -/
theorem mem_genRange (cur : Int) (rd : Nat) (i : Int)
    (h : (i - cur).natAbs ≤ rd) : i ∈ genRange cur rd := by
  unfold genRange
  rw [mem_intRange]
  omega

/-- After one `update(x)`, every resident index is within
`renderDistance + 1` of the current chunk. -/
theorem iwm_update_window (s : GameSettings) (w : InfiniteWorldState)
    (x : Rat) (i : Int)
    (h : i ∈ (InfiniteWorldManager.update s x w).chunks) :
    (i - ⌊x / s.chunkWidth⌋).natAbs ≤ w.renderDistance + 1 := by
  unfold InfiniteWorldManager.update at h
  simp only [List.mem_filter, decide_eq_true_eq] at h
  exact h.2

/-- After one `update(x)`, every index within `renderDistance` of the
current chunk is resident. -/
theorem iwm_update_resident (s : GameSettings) (w : InfiniteWorldState)
    (x : Rat) (i : Int)
    (h : (i - ⌊x / s.chunkWidth⌋).natAbs ≤ w.renderDistance) :
    i ∈ (InfiniteWorldManager.update s x w).chunks := by
  unfold InfiniteWorldManager.update
  simp only [List.mem_filter, decide_eq_true_eq]
  refine ⟨?_, by omega⟩
  exact mem_genAll_of_mem_list (genRange ⌊x / s.chunkWidth⌋ w.renderDistance) i
    w.chunks (mem_genRange ⌊x / s.chunkWidth⌋ w.renderDistance i h)

/-- Claim C2: after any nonempty sequence of `update` calls ending in
`update(x)`, every resident chunk index lies within
`renderDistance + 1` of `floor(x / chunkWidth)`, and every index within
`renderDistance` of it is resident (generation window ±renderDistance,
eviction only beyond ±(renderDistance + 1)). -/
theorem c2_chunk_window (s : GameSettings) (w : InfiniteWorldState)
    (xs : List Rat) (x : Rat) :
    (∀ i ∈ (InfiniteWorldManager.updates s (xs ++ [x]) w).chunks,
      (i - ⌊x / s.chunkWidth⌋).natAbs ≤
        (InfiniteWorldManager.updates s (xs ++ [x]) w).renderDistance + 1) ∧
    (∀ i : Int,
      (i - ⌊x / s.chunkWidth⌋).natAbs ≤
        (InfiniteWorldManager.updates s (xs ++ [x]) w).renderDistance →
      i ∈ (InfiniteWorldManager.updates s (xs ++ [x]) w).chunks) := by
  have hsplit : InfiniteWorldManager.updates s (xs ++ [x]) w =
      InfiniteWorldManager.update s x (InfiniteWorldManager.updates s xs w) := by
    unfold InfiniteWorldManager.updates
    rw [List.foldl_append]
    rfl
  rw [hsplit]
  constructor
  · intro i hi
    exact iwm_update_window s (InfiniteWorldManager.updates s xs w) x i hi
  · intro i hi
    exact iwm_update_resident s (InfiniteWorldManager.updates s xs w) x i hi

/-- A fresh world state before bootstrap, render distance 2. -/
def c2InitW : InfiniteWorldState :=
  { chunks := [], lastPlayerX := 0, renderDistance := 2 }

/-- Witness for C2: after the single call `update(0)` on a fresh world,
chunk 0 is resident and lies within the eviction window. -/
theorem c2_chunk_window_witness :
    (0 : Int) ∈ (InfiniteWorldManager.updates testSettings ([] ++ [(0 : Rat)]) c2InitW).chunks ∧
    ((0 : Int) - ⌊(0 : Rat) / testSettings.chunkWidth⌋).natAbs ≤
      (InfiniteWorldManager.updates testSettings ([] ++ [(0 : Rat)]) c2InitW).renderDistance + 1 := by
  have h := c2_chunk_window testSettings c2InitW [] 0
  have hb : ((0 : Int) - ⌊(0 : Rat) / testSettings.chunkWidth⌋).natAbs ≤
      (InfiniteWorldManager.updates testSettings ([] ++ [(0 : Rat)]) c2InitW).renderDistance := by
    norm_num [testSettings, InfiniteWorldManager.updates, InfiniteWorldManager.update, c2InitW]
  have hmem := h.2 0 hb
  exact ⟨hmem, h.1 0 hmem⟩
